import Mathlib

/-!
# Open3DScene: the scene facade of the Open3D viewer

A shallow embedding of `cpp/open3d/visualization/rendering/Open3DScene.h`.

The header declares the class, its private state and the nested `GeometryData`
record; it defines inline the two `GeometryData` constructors, the default
member initialiser of `lod_` and the accessor `GetBoundingBox`.  These parts are
embedded from the header.  The bodies of the other member functions live in
`Open3DScene.cpp`, and the collaborators (`Renderer`, `Scene`,
`AxisAlignedBoundingBox`, `Geometry3D`, `Material`) in other headers; each
definition standing for one of those is marked `Modelled from the spec:`.
-/

namespace open3d

/-! ## Collaborators -/

/-- Modelled from the spec: the coordinate triple of a box corner
(`Eigen::Vector3d` in `open3d/geometry/BoundingVolume.h`, which is not part of
the sources).  Coordinates are exact integers: the union of boxes only compares
coordinates, it does no arithmetic on them. -/
structure Vector3 where
  x : Int
  y : Int
  z : Int
  deriving DecidableEq, Repr

/-- Component-wise minimum of two corners. -/
def Vector3.cwiseMin (a b : Vector3) : Vector3 :=
  ⟨min a.x b.x, min a.y b.y, min a.z b.z⟩

/-- Component-wise maximum of two corners. -/
def Vector3.cwiseMax (a b : Vector3) : Vector3 :=
  ⟨max a.x b.x, max a.y b.y, max a.z b.z⟩

/-- Modelled from the spec: `geometry::AxisAlignedBoundingBox`
(`open3d/geometry/BoundingVolume.h` is not part of the sources).  The spec calls
it "an axis-aligned box accumulated as the union of all registered geometries'
extents", which has an "empty/default value": `empty` is that value, `box` a box
given by its minimal and maximal corner. -/
inductive AxisAlignedBoundingBox where
  | empty
  | box (min_bound max_bound : Vector3)
  deriving DecidableEq, Repr

/-- Modelled from the spec: the union of two boxes (what "expands the bounding
box to include `geom`'s extent" computes): the empty box is neutral, two boxes
give the smallest box enclosing both. -/
def AxisAlignedBoundingBox.union :
    AxisAlignedBoundingBox → AxisAlignedBoundingBox → AxisAlignedBoundingBox
  | .empty, b => b
  | a, .empty => a
  | .box lo₁ hi₁, .box lo₂ hi₂ => .box (lo₁.cwiseMin lo₂) (hi₁.cwiseMax hi₂)

/-- Modelled from the spec: `geometry::Geometry3D` is only forward-declared in
the header; the facade uses nothing of a geometry but its extent.  The
downsampled copy that `AddGeometry` may register is made by a decimation
outside the facade; the model keeps the extent of that copy with the geometry
it is made of. -/
structure Geometry3D where
  extent : AxisAlignedBoundingBox
  downsampled_extent : AxisAlignedBoundingBox
  deriving DecidableEq, Repr

/-- Modelled from the spec: `Material` is only forward-declared in the header;
the facade hands it to the scene and never looks inside. -/
structure Material where
  id : Nat
  deriving DecidableEq, Repr

/-- Modelled from the spec: `SceneHandle` of `Renderer.h`, a handle to a
renderer-owned scene. -/
abbrev SceneHandle := Nat

/-- Modelled from the spec: `ViewHandle` of `Renderer.h`, a handle to a
renderer-owned view. -/
abbrev ViewHandle := Nat

/-! ## The header: `LOD`, `GeometryData`, the private state -/

/-- Enumeration `Open3DScene::LOD` (header lines 72-75). -/
inductive LOD where
  | HIGH_DETAIL
  | FAST
  deriving DecidableEq, Repr

/-- Record `Open3DScene::GeometryData` (header lines 83-92). -/
structure GeometryData where
  name : String
  fast_name : String
  visible : Bool
  deriving DecidableEq, Repr

/-- Constructor `GeometryData() : visible(false) {}` (header line 88): the two
strings are default-constructed, that is, empty. -/
def GeometryData.ctor : GeometryData :=
  { name := "", fast_name := "", visible := false }

/-- Constructor `GeometryData(const std::string& n, const std::string& fast)
: name(n), fast_name(fast), visible(true) {}` (header lines 89-91). -/
def GeometryData.ctor_n_fast (n fast : String) : GeometryData :=
  { name := n, fast_name := fast, visible := true }

/-- Modelled from the spec: the externally owned `Renderer` together with the
scene it owns for the facade (`Renderer.h` and the scene classes are not part of
the sources).  Of the scene the model keeps what the facade reads and writes:
the geometries it holds, full-detail and downsampled alike, each with its
extent under its identifier, and the set of identifiers of the proxies
currently bound for rendering. -/
structure Renderer where
  handles : Nat
  geometry : List (String × AxisAlignedBoundingBox)
  shown : Finset String
  deriving DecidableEq

/-- Modelled from the spec: the scene's "geometry add by identifier"; an
identifier already in use gets the new geometry. -/
def Renderer.AddGeometry (r : Renderer) (id : String)
    (extent : AxisAlignedBoundingBox) : Renderer :=
  { r with geometry := (id, extent) :: r.geometry.filter (fun p => p.1 ≠ id) }

/-- Modelled from the spec: the scene shows or hides the proxy `id`. -/
def Renderer.ShowGeometry (r : Renderer) (id : String) (visible : Bool) : Renderer :=
  { r with shown := if visible then insert id r.shown else r.shown.erase id }

/-- Modelled from the spec: the scene's "geometry remove by identifier"; the
proxy is dropped and so no longer bound. -/
def Renderer.RemoveGeometry (r : Renderer) (id : String) : Renderer :=
  { r with geometry := r.geometry.filter (fun p => p.1 ≠ id), shown := r.shown.erase id }

/-- Extent stored under `id` in an identifier-keyed list, the empty box when
there is none. -/
def lookupExtent : List (String × AxisAlignedBoundingBox) → String → AxisAlignedBoundingBox
  | [], _ => .empty
  | (k, b) :: rest, id => if k = id then b else lookupExtent rest id

/-- Modelled from the spec: the extent of the scene geometry `id`. -/
def Renderer.GetGeometryBoundingBox (r : Renderer) (id : String) : AxisAlignedBoundingBox :=
  lookupExtent r.geometry id

/-! ## The registry `std::map<std::string, GeometryData>` -/

/-- The registry type of `geometries_` (header line 102): the entries of the
map in iteration order. -/
abbrev GeometryMap := List (String × GeometryData)

/-- Key order of `std::map<std::string, _>`: lexicographic on the characters. -/
def keyLE (p q : String × GeometryData) : Prop := p.1.data ≤ q.1.data

instance : DecidableRel keyLE :=
  fun p q => inferInstanceAs (Decidable (p.1.data ≤ q.1.data))

/-- Lookup `std::map::find`. -/
def GeometryMap.find (m : GeometryMap) (name : String) : Option GeometryData :=
  (m.find? (fun p => p.1 = name)).map Prod.snd

/-- Removal `std::map::erase(key)`. -/
def GeometryMap.erase (m : GeometryMap) (name : String) : GeometryMap :=
  m.filter (fun p => p.1 ≠ name)

/-- Assignment `m[name] = data`: the entry of `name` is replaced, or inserted
at its place in key order. -/
def GeometryMap.assign (m : GeometryMap) (name : String) (data : GeometryData) : GeometryMap :=
  List.orderedInsert keyLE (name, data) (m.erase name)

/-- Private state of `Open3DScene` (header lines 97-103).  `renderer_` is a
reference in the source; the model carries the referenced state.  The default
of `lod_` is the default member initialiser of line 101. -/
structure Open3DScene where
  renderer_ : Renderer
  scene_ : SceneHandle
  view_ : ViewHandle
  lod_ : LOD := LOD.HIGH_DETAIL
  geometries_ : GeometryMap
  bounds_ : AxisAlignedBoundingBox
  deriving DecidableEq

/-- Accessor `const geometry::AxisAlignedBoundingBox& GetBoundingBox()
{ return bounds_; }` (header line 70).  The member function is not `const`, so
the model returns the state after the call next to the box. -/
def Open3DScene.GetBoundingBox (s : Open3DScene) : AxisAlignedBoundingBox × Open3DScene :=
  (s.bounds_, s)

/-! ## The member functions defined in `Open3DScene.cpp` -/

/-- Modelled from the spec: the constructor `Open3DScene(Renderer&)`, whose body
is in `Open3DScene.cpp`: it "binds to an externally owned Renderer; creates one
internal scene and one default view".  The fields it does not mention keep
their defaults: `lod_` its default member initialiser, the registry and the box
their default-constructed (empty) values. -/
def Open3DScene.ctor (renderer : Renderer) : Open3DScene :=
  { renderer_ := { handles := renderer.handles + 2, geometry := [], shown := ∅ }
    scene_ := renderer.handles
    view_ := renderer.handles + 1
    geometries_ := []
    bounds_ := AxisAlignedBoundingBox.empty }

/-- Modelled from the spec: `GetLOD` "reports current mode" (body in
`Open3DScene.cpp`). -/
def Open3DScene.GetLOD (s : Open3DScene) : LOD := s.lod_

/-- Modelled from the spec: the proxy of an entry that a mode binds:
"HIGH_DETAIL binds the original geometry, FAST binds the `fast_name` proxy if
one exists (falls back to the original if no fast copy was created)". -/
def activeProxy (data : GeometryData) : LOD → String
  | LOD.HIGH_DETAIL => data.name
  | LOD.FAST => if data.fast_name = "" then data.name else data.fast_name

/-- Modelled from the spec: `SetGeometryToLOD` (declared at header line 94, body
in `Open3DScene.cpp`) "swaps the bound rendering proxy" of one entry: both
proxies of the entry are unbound, then the proxy of the mode is shown or hidden
as the entry's visibility flag says. -/
def Open3DScene.SetGeometryToLOD (s : Open3DScene) (data : GeometryData) (lod : LOD) :
    Open3DScene :=
  let r₁ := s.renderer_.ShowGeometry data.name false
  let r₂ := if data.fast_name = "" then r₁ else r₁.ShowGeometry data.fast_name false
  { s with renderer_ := r₂.ShowGeometry (activeProxy data lod) data.visible }

/-- Modelled from the spec: `SetLOD(lod)` "transitions the mode and, for every
registry entry, swaps the bound rendering proxy"; "re-setting the same mode is
a no-op on observable state": there is a transition, and proxies to swap, only
when `lod` is not the current mode (body in `Open3DScene.cpp`). -/
def Open3DScene.SetLOD (s : Open3DScene) (lod : LOD) : Open3DScene :=
  if lod = s.lod_ then s
  else s.geometries_.foldl (fun t g => t.SetGeometryToLOD g.2 lod) { s with lod_ := lod }

/-- Modelled from the spec: an entry's proxies are released from the scene: the
geometry of its name is removed and, if the entry has a fast proxy, the
geometry of its fast name. -/
def releaseProxies (r : Renderer) (data : GeometryData) : Renderer :=
  let r₁ := r.RemoveGeometry data.name
  if data.fast_name = "" then r₁ else r₁.RemoveGeometry data.fast_name

/-- Modelled from the spec: `ClearGeometry()` "removes all entries from the
registry, releases their underlying proxies from the scene, resets the bounding
box to empty" (body in `Open3DScene.cpp`). -/
def Open3DScene.ClearGeometry (s : Open3DScene) : Open3DScene :=
  { s with
    renderer_ := s.geometries_.foldl (fun r g => releaseProxies r g.2) s.renderer_
    geometries_ := []
    bounds_ := AxisAlignedBoundingBox.empty }

/-- Modelled from the spec: the box "recomputed from the remaining entries": the
union of the extents the scene holds for the registry's entries. -/
def recomputeBounds (r : Renderer) (m : GeometryMap) : AxisAlignedBoundingBox :=
  m.foldl (fun b g => b.union (r.GetGeometryBoundingBox g.2.name)) AxisAlignedBoundingBox.empty

/-- Modelled from the spec: `RemoveGeometry(name)` "removes the named entry (and
its fast proxy, if any) from the scene and registry; recomputes the bounding box
from the remaining entries.  No-op if `name` is absent" (body in
`Open3DScene.cpp`). -/
def Open3DScene.RemoveGeometry (s : Open3DScene) (name : String) : Open3DScene :=
  match s.geometries_.find name with
  | none => s
  | some g =>
    let r := releaseProxies s.renderer_ g
    let m := s.geometries_.erase name
    { s with renderer_ := r, geometries_ := m, bounds_ := recomputeBounds r m }

/-- Modelled from the spec: `AddGeometry(name, geom, material, add_fast_copy)`
"registers `geom` under `name`", "if `add_fast_copy` is true, additionally
generates and registers a downsampled proxy", "expands the bounding box to
include `geom`'s extent" (body in `Open3DScene.cpp`).  "Re-registering an
existing name replaces its entry": what the name stood for is removed first, as
`RemoveGeometry` removes it, so that the box stays one "reflecting the current
registry state".  The new entry is visible and gets the proxy of the current
mode bound.  The identifier given to a downsampled proxy is not fixed by the
spec: it is the parameter `fast_id`.  `geom` is not null (the stated
precondition). -/
def Open3DScene.AddGeometry (fast_id : String → String) (s : Open3DScene) (name : String)
    (geom : Geometry3D) (_mat : Material)
    (add_downsampled_copy_for_fast_rendering : Bool) : Open3DScene :=
  let s₀ := s.RemoveGeometry name
  let info := GeometryData.ctor_n_fast name
    (if add_downsampled_copy_for_fast_rendering then fast_id name else "")
  let r₁ := s₀.renderer_.AddGeometry name geom.extent
  let r₂ := if info.fast_name = "" then r₁
    else r₁.AddGeometry info.fast_name geom.downsampled_extent
  let t : Open3DScene :=
    { s₀ with
      renderer_ := r₂
      geometries_ := s₀.geometries_.assign name info
      bounds_ := s₀.bounds_.union geom.extent }
  t.SetGeometryToLOD info t.lod_

/-- Modelled from the spec: `ShowGeometry(name, show)` "sets the entry's
visibility flag and applies it to whichever proxy (full or fast) is currently
active under the current LOD mode.  No-op if `name` is absent" (body in
`Open3DScene.cpp`). -/
def Open3DScene.ShowGeometry (s : Open3DScene) (name : String) (visible : Bool) : Open3DScene :=
  match s.geometries_.find name with
  | none => s
  | some g =>
    { s with
      renderer_ := s.renderer_.ShowGeometry (activeProxy g s.lod_) visible
      geometries_ := s.geometries_.assign name { g with visible := visible } }

/-! ## Bound proxies -/

/-- Identifiers of the proxies of a registry entry: its name and, when it has a
downsampled copy, its fast name. -/
def proxyIds (data : GeometryData) : List String :=
  data.name :: (if data.fast_name = "" then [] else [data.fast_name])

/-- Effect of `SetGeometryToLOD` on the set of bound proxies. -/
def stepShown (lod : LOD) (B : Finset String) (data : GeometryData) : Finset String :=
  let B₁ := B.erase data.name
  let B₂ := if data.fast_name = "" then B₁ else B₁.erase data.fast_name
  if data.visible then insert (activeProxy data lod) B₂ else B₂.erase (activeProxy data lod)

/-- Effect of `SetLOD` on the set of bound proxies: the entries are handled one
after the other, in the registry's order. -/
def foldShown (lod : LOD) (m : GeometryMap) (B : Finset String) : Finset String :=
  m.foldl (fun B g => stepShown lod B g.2) B

/-- The bound proxies agree with the registry and the mode: of every entry's
proxies, the one of the current mode is bound when the entry is visible, and no
other is.  This is what the spec's data model says of the mode: it selects
"which proxy (full or fast) is bound into the active view for every registered
entry", the visibility flag saying whether that proxy is shown at all. -/
def Open3DScene.ProxiesBound (s : Open3DScene) : Prop :=
  ∀ g ∈ s.geometries_, ∀ id ∈ proxyIds g.2,
    (id ∈ s.renderer_.shown ↔ (g.2.visible = true ∧ id = activeProxy g.2 s.lod_))

instance : DecidablePred Open3DScene.ProxiesBound := fun s => by
  unfold Open3DScene.ProxiesBound
  infer_instance

/-! ## Sequences of geometry calls -/

/-- A call of `AddGeometry` or of `RemoveGeometry`, with its arguments. -/
inductive GeometryCall where
  | AddGeometry (name : String) (geom : Geometry3D) (mat : Material)
      (add_downsampled_copy_for_fast_rendering : Bool)
  | RemoveGeometry (name : String)
  deriving DecidableEq

/-- One call made on a scene. -/
def Open3DScene.call (fast_id : String → String) (s : Open3DScene) : GeometryCall → Open3DScene
  | .AddGeometry name geom mat fast => s.AddGeometry fast_id name geom mat fast
  | .RemoveGeometry name => s.RemoveGeometry name

/-- A sequence of calls made on a scene, first call first. -/
def Open3DScene.calls (fast_id : String → String) (s : Open3DScene)
    (cs : List GeometryCall) : Open3DScene :=
  cs.foldl (Open3DScene.call fast_id) s

/-- Specification side of the bounding-box property: the geometries that are
registered after a sequence of calls, `reg` being those registered before it.
By the spec's words: `AddGeometry` registers the geometry under the name
(replacing what the name stood for), `RemoveGeometry` removes the named one. -/
def registeredAfter (reg : List (String × Geometry3D)) :
    List GeometryCall → List (String × Geometry3D)
  | [] => reg
  | .AddGeometry name geom _ _ :: cs =>
    registeredAfter ((name, geom) :: reg.filter (fun p => p.1 ≠ name)) cs
  | .RemoveGeometry name :: cs => registeredAfter (reg.filter (fun p => p.1 ≠ name)) cs

/-- Union of a list of boxes. -/
def unionAll (l : List AxisAlignedBoundingBox) : AxisAlignedBoundingBox :=
  l.foldr AxisAlignedBoundingBox.union AxisAlignedBoundingBox.empty

/-- Identifier of the fast proxy of a registry entry, if it has one. -/
def fastIds (data : GeometryData) : List String :=
  if data.fast_name = "" then [] else [data.fast_name]

/-- The call keeps the identifiers of fast proxies apart from the names of
geometries: the name given to `AddGeometry` is not the identifier of the fast
proxy of a geometry registered under another name, and the identifier of the
downsampled copy it asks for, if any, is neither that name nor the name of a
geometry registered under another name. -/
def Open3DScene.keepsApart (fast_id : String → String) (s : Open3DScene) : GeometryCall → Prop
  | .AddGeometry name _ _ fast =>
    (∀ g ∈ s.geometries_, g.1 ≠ name → name ∉ fastIds g.2) ∧
      ∀ id ∈ fastIds (GeometryData.ctor_n_fast name (if fast then fast_id name else "")),
        id ≠ name ∧ ∀ g ∈ s.geometries_, g.1 ≠ name → id ≠ g.1
  | .RemoveGeometry _ => True

instance (fast_id : String → String) (s : Open3DScene) (c : GeometryCall) :
    Decidable (s.keepsApart fast_id c) := by
  cases c <;> (unfold Open3DScene.keepsApart; infer_instance)

/-- Every call of the sequence keeps the identifiers of fast proxies apart from
the names of geometries, in the state it is made on. -/
def Open3DScene.keepsApartAll (fast_id : String → String) (s : Open3DScene) :
    List GeometryCall → Prop
  | [] => True
  | c :: cs => s.keepsApart fast_id c ∧ (s.call fast_id c).keepsApartAll fast_id cs

/-- Decision procedure of `keepsApartAll`. -/
def Open3DScene.decideKeepsApartAll (fast_id : String → String) :
    (s : Open3DScene) → (cs : List GeometryCall) → Decidable (s.keepsApartAll fast_id cs)
  | _, [] => isTrue trivial
  | s, c :: cs =>
    match (inferInstance : Decidable (s.keepsApart fast_id c)),
      Open3DScene.decideKeepsApartAll fast_id (s.call fast_id c) cs with
    | isTrue h₁, isTrue h₂ => isTrue ⟨h₁, h₂⟩
    | isFalse h₁, _ => isFalse (fun h => h₁ h.1)
    | _, isFalse h₂ => isFalse (fun h => h₂ h.2)

instance (fast_id : String → String) (s : Open3DScene) (cs : List GeometryCall) :
    Decidable (s.keepsApartAll fast_id cs) :=
  Open3DScene.decideKeepsApartAll fast_id s cs

/-! ## Sequences of calls of any kind -/

/-- A call of one of the member functions that change the scene: a geometry
call, `ClearGeometry`, `ShowGeometry` or `SetLOD`. -/
inductive SceneCall where
  | geometry (c : GeometryCall)
  | ClearGeometry
  | ShowGeometry (name : String) (visible : Bool)
  | SetLOD (lod : LOD)
  deriving DecidableEq

/-- One call of any kind made on a scene. -/
def Open3DScene.perform (fast_id : String → String) (s : Open3DScene) : SceneCall → Open3DScene
  | .geometry c => s.call fast_id c
  | .ClearGeometry => s.ClearGeometry
  | .ShowGeometry name visible => s.ShowGeometry name visible
  | .SetLOD lod => s.SetLOD lod

/-- A sequence of calls of any kind made on a scene, first call first. -/
def Open3DScene.run (fast_id : String → String) (s : Open3DScene)
    (cs : List SceneCall) : Open3DScene :=
  cs.foldl (Open3DScene.perform fast_id) s

/-- An identifier belongs to one registry entry only. -/
def UniqueIds (m : GeometryMap) : Prop :=
  ∀ g ∈ m, ∀ g2 ∈ m, ∀ id ∈ proxyIds g.2, id ∈ proxyIds g2.2 → g = g2

instance : DecidablePred UniqueIds := fun m => by
  unfold UniqueIds
  infer_instance

/-- Well-formed scene states: every entry carries its key as name, identifiers
are unique, and the proxies are bound as the registry and the mode say. -/
structure Open3DScene.WellFormed (s : Open3DScene) : Prop where
  names : ∀ g ∈ s.geometries_, g.2.name = g.1
  unique : UniqueIds s.geometries_
  bound : s.ProxiesBound

/-- The identifiers a call introduces are not in use by another entry: for
`AddGeometry(name, ..)` neither `name` nor the identifier of the downsampled
copy is an identifier of an entry registered under another name. -/
def Open3DScene.admits (fast_id : String → String) (s : Open3DScene) : SceneCall → Prop
  | .geometry (.AddGeometry name _ _ fast) =>
    ∀ g ∈ s.geometries_, g.1 ≠ name →
      ∀ id ∈ proxyIds (GeometryData.ctor_n_fast name (if fast then fast_id name else "")),
        id ∉ proxyIds g.2
  | _ => True

/-- Every call of the sequence is admitted by the state it is made on. -/
def Open3DScene.admitsAll (fast_id : String → String) (s : Open3DScene) : List SceneCall → Prop
  | [] => True
  | c :: cs => s.admits fast_id c ∧ (s.perform fast_id c).admitsAll fast_id cs

/-- The call is a `SetLOD`. -/
def SceneCall.isSetLOD : SceneCall → Bool
  | .SetLOD _ => true
  | _ => false

/-! ## Example data -/

/-- An example of how downsampled proxies may be named: the geometry's name with
a suffix. -/
def suffixFastId (name : String) : String := name ++ ".fast"

/-- An example renderer, with no handle issued yet. -/
def exampleRenderer : Renderer := { handles := 0, geometry := [], shown := ∅ }

/-- An example geometry: the cube from (0,0,0) to (1,1,1). -/
def unitCube : Geometry3D :=
  { extent := .box ⟨0, 0, 0⟩ ⟨1, 1, 1⟩
    downsampled_extent := .box ⟨0, 0, 0⟩ ⟨1, 1, 1⟩ }

/-- An example material. -/
def exampleMaterial : Material := ⟨0⟩

/-- An example sequence of calls of several kinds, none of them a `SetLOD`. -/
def exampleRun : List SceneCall :=
  [.geometry (.AddGeometry "a" unitCube exampleMaterial true),
   .ShowGeometry "a" false,
   .geometry (.RemoveGeometry "a"),
   .ClearGeometry]

/-! ## Lemmas on the bound proxies -/

theorem activeProxy_eq (data : GeometryData) (lod : LOD) :
    activeProxy data lod = data.name ∨
      (data.fast_name ≠ "" ∧ activeProxy data lod = data.fast_name) := by
  cases lod
  · exact Or.inl rfl
  · by_cases hf : data.fast_name = ""
    · exact Or.inl (by simp [activeProxy, hf])
    · exact Or.inr ⟨hf, by simp [activeProxy, hf]⟩

theorem activeProxy_mem (data : GeometryData) (lod : LOD) :
    activeProxy data lod ∈ proxyIds data := by
  rcases activeProxy_eq data lod with h | ⟨hf, h⟩
  · simp [proxyIds, h]
  · simp [proxyIds, h, hf]

theorem SetGeometryToLOD_eq (s : Open3DScene) (data : GeometryData) (lod : LOD) :
    s.SetGeometryToLOD data lod =
      { s with
        renderer_ := { s.renderer_ with shown := stepShown lod s.renderer_.shown data } } := by
  unfold Open3DScene.SetGeometryToLOD stepShown Renderer.ShowGeometry
  by_cases hf : data.fast_name = "" <;> simp [hf]

theorem mem_stepShown (lod : LOD) (B : Finset String) (data : GeometryData) (id : String) :
    id ∈ stepShown lod B data ↔
      (id ∈ proxyIds data ∧ data.visible = true ∧ id = activeProxy data lod) ∨
      (id ∉ proxyIds data ∧ id ∈ B) := by
  unfold stepShown proxyIds
  cases hv : data.visible <;> by_cases hf : data.fast_name = "" <;>
    rcases activeProxy_eq data lod with h | ⟨hf2, h⟩ <;>
    simp only [hf, h, if_true, if_false, Finset.mem_insert, Finset.mem_erase,
      List.mem_cons, List.mem_singleton, List.not_mem_nil, or_false, Bool.false_eq_true,
      false_and, and_false, true_and, and_true] <;>
    tauto
theorem foldShown_cons (lod : LOD) (g : String × GeometryData) (m : GeometryMap)
    (B : Finset String) :
    foldShown lod (g :: m) B = foldShown lod m (stepShown lod B g.2) := rfl

theorem SetLOD_fold (lod : LOD) (m : GeometryMap) (t : Open3DScene) :
    m.foldl (fun t g => t.SetGeometryToLOD g.2 lod) t =
      { t with renderer_ := { t.renderer_ with shown := foldShown lod m t.renderer_.shown } } := by
  induction m generalizing t with
  | nil => rfl
  | cons g m ih =>
    rw [List.foldl_cons, ih, SetGeometryToLOD_eq, foldShown_cons]

theorem SetLOD_of_eq (s : Open3DScene) (lod : LOD) (h : lod = s.lod_) : s.SetLOD lod = s := by
  unfold Open3DScene.SetLOD
  rw [if_pos h]

theorem SetLOD_of_ne (s : Open3DScene) (lod : LOD) (h : lod ≠ s.lod_) :
    s.SetLOD lod =
      { s with
        lod_ := lod
        renderer_ :=
          { s.renderer_ with shown := foldShown lod s.geometries_ s.renderer_.shown } } := by
  unfold Open3DScene.SetLOD
  rw [if_neg h, SetLOD_fold]

/-- An identifier that no entry uses is bound after `SetLOD` exactly when it was
bound before. -/
theorem foldShown_not_mentioned (lod : LOD) (m : GeometryMap) (B : Finset String) (id : String)
    (h : ∀ g ∈ m, id ∉ proxyIds g.2) : id ∈ foldShown lod m B ↔ id ∈ B := by
  induction m generalizing B with
  | nil => rfl
  | cons g m ih =>
    rw [foldShown_cons, ih _ (fun g' hg' => h g' (List.mem_cons_of_mem _ hg')), mem_stepShown]
    have := h g (List.mem_cons_self _ _)
    tauto

/-- The bound set after `SetLOD` depends on the bound set before only through
the identifiers that no entry uses. -/
theorem foldShown_congr (lod : LOD) (m : GeometryMap) (B B2 : Finset String)
    (h : ∀ id, (∀ g ∈ m, id ∉ proxyIds g.2) → (id ∈ B ↔ id ∈ B2)) :
    foldShown lod m B = foldShown lod m B2 := by
  induction m generalizing B B2 with
  | nil =>
    ext id
    exact h id (fun g hg => absurd hg (List.not_mem_nil g))
  | cons g m ih =>
    rw [foldShown_cons, foldShown_cons]
    apply ih
    intro id hid
    rw [mem_stepShown, mem_stepShown]
    by_cases hg : id ∈ proxyIds g.2
    · tauto
    · have := h id (fun g' hg' => by
        rcases List.mem_cons.1 hg' with rfl | hm
        · exact hg
        · exact hid g' hm)
      tauto

/-- When every entry that uses an identifier prescribes the same binding for it,
that is its binding after `SetLOD`. -/
theorem foldShown_prescribed (lod : LOD) (m : GeometryMap) (B : Finset String) (id : String)
    (b : Prop) (hex : ∃ g ∈ m, id ∈ proxyIds g.2)
    (hall : ∀ g ∈ m, id ∈ proxyIds g.2 →
      ((g.2.visible = true ∧ id = activeProxy g.2 lod) ↔ b)) :
    id ∈ foldShown lod m B ↔ b := by
  induction m generalizing B with
  | nil =>
    obtain ⟨g, hg, _⟩ := hex
    exact absurd hg (List.not_mem_nil g)
  | cons g m ih =>
    rw [foldShown_cons]
    by_cases hm : ∃ g' ∈ m, id ∈ proxyIds g'.2
    · exact ih _ hm (fun g' hg' => hall g' (List.mem_cons_of_mem _ hg'))
    · have hno : ∀ g' ∈ m, id ∉ proxyIds g'.2 := fun g' hg' hid => hm ⟨g', hg', hid⟩
      rw [foldShown_not_mentioned lod m _ id hno, mem_stepShown]
      obtain ⟨g', hg', hid⟩ := hex
      rcases List.mem_cons.1 hg' with rfl | hg'm
      · have := hall g' (List.mem_cons_self _ _) hid
        tauto
      · exact absurd hid (hno g' hg'm)

theorem foldShown_idem (lod lod2 : LOD) (m : GeometryMap) (B : Finset String) :
    foldShown lod m (foldShown lod2 m B) = foldShown lod m B :=
  foldShown_congr lod m _ _ (fun id hid => foldShown_not_mentioned lod2 m B id hid)
/-! ## Lemmas on boxes -/

theorem AxisAlignedBoundingBox.union_assoc (a b c : AxisAlignedBoundingBox) :
    (a.union b).union c = a.union (b.union c) := by
  cases a <;> cases b <;> cases c <;>
    simp [AxisAlignedBoundingBox.union, Vector3.cwiseMin, Vector3.cwiseMax, min_assoc, max_assoc]

theorem AxisAlignedBoundingBox.empty_union (a : AxisAlignedBoundingBox) :
    AxisAlignedBoundingBox.empty.union a = a := by
  cases a <;> rfl

theorem AxisAlignedBoundingBox.union_empty (a : AxisAlignedBoundingBox) :
    a.union AxisAlignedBoundingBox.empty = a := by
  cases a <;> rfl

theorem unionAll_cons (a : AxisAlignedBoundingBox) (l : List AxisAlignedBoundingBox) :
    unionAll (a :: l) = a.union (unionAll l) := rfl

/-- Accumulating from the left, as the recomputation does, gives the union. -/
theorem foldl_union (l : List AxisAlignedBoundingBox) (b : AxisAlignedBoundingBox) :
    l.foldl AxisAlignedBoundingBox.union b = b.union (unionAll l) := by
  induction l generalizing b with
  | nil => exact (AxisAlignedBoundingBox.union_empty b).symm
  | cons a l ih =>
    rw [List.foldl_cons, ih, unionAll_cons, AxisAlignedBoundingBox.union_assoc]

theorem recomputeBounds_eq (r : Renderer) (m : GeometryMap) :
    recomputeBounds r m = unionAll (m.map (fun g => r.GetGeometryBoundingBox g.2.name)) := by
  unfold recomputeBounds
  rw [← List.foldl_map, foldl_union, AxisAlignedBoundingBox.empty_union]
/-! ## Lemmas on the registry and the geometry store -/

theorem filter_ne_eq_self {β : Type} (l : List (String × β)) (n : String)
    (h : n ∉ l.map Prod.fst) : l.filter (fun p => p.1 ≠ n) = l := by
  rw [List.filter_eq_self]
  intro p hp
  have : p.1 ≠ n := fun e => h (e ▸ List.mem_map_of_mem Prod.fst hp)
  simpa using this

theorem GeometryMap.find_none (m : GeometryMap) (name : String) (h : m.find name = none) :
    name ∉ m.map Prod.fst := by
  unfold GeometryMap.find at h
  intro hmem
  obtain ⟨p, hp, rfl⟩ := List.mem_map.1 hmem
  simp only [Option.map_eq_none', List.find?_eq_none] at h
  have := h p hp
  simp at this

theorem GeometryMap.find_some (m : GeometryMap) (name : String) (g : GeometryData)
    (h : m.find name = some g) : (name, g) ∈ m := by
  unfold GeometryMap.find at h
  obtain ⟨p, hp, rfl⟩ := Option.map_eq_some'.1 h
  have hk := List.find?_some hp
  have hm := List.mem_of_find?_eq_some hp
  have : p.1 = name := by simpa using hk
  rw [← this]
  exact hm

theorem GeometryMap.mem_assign (m : GeometryMap) (name : String) (data : GeometryData)
    (g : String × GeometryData) :
    g ∈ m.assign name data ↔ g = (name, data) ∨ (g ∈ m ∧ g.1 ≠ name) := by
  unfold GeometryMap.assign GeometryMap.erase
  rw [List.mem_orderedInsert, List.mem_filter]
  simp

theorem RemoveGeometry_geometries (s : Open3DScene) (name : String) :
    (s.RemoveGeometry name).geometries_ = s.geometries_.erase name := by
  unfold Open3DScene.RemoveGeometry
  cases hfind : s.geometries_.find name with
  | none =>
    exact (filter_ne_eq_self s.geometries_ name (GeometryMap.find_none _ _ hfind)).symm
  | some g => rfl

theorem RemoveGeometry_lod (s : Open3DScene) (name : String) :
    (s.RemoveGeometry name).lod_ = s.lod_ := by
  unfold Open3DScene.RemoveGeometry
  split <;> rfl

theorem mem_RemoveGeometry (s : Open3DScene) (name : String) (g : String × GeometryData) :
    g ∈ (s.RemoveGeometry name).geometries_ ↔ g ∈ s.geometries_ ∧ g.1 ≠ name := by
  rw [RemoveGeometry_geometries, GeometryMap.erase, List.mem_filter]
  simp

theorem AddGeometry_fields (fast_id : String → String) (s : Open3DScene) (name : String)
    (geom : Geometry3D) (mat : Material) (fast : Bool) :
    (s.AddGeometry fast_id name geom mat fast).geometries_ =
        (s.RemoveGeometry name).geometries_.assign name
          (GeometryData.ctor_n_fast name (if fast then fast_id name else "")) ∧
      (s.AddGeometry fast_id name geom mat fast).renderer_.shown =
        stepShown s.lod_ (s.RemoveGeometry name).renderer_.shown
          (GeometryData.ctor_n_fast name (if fast then fast_id name else "")) ∧
      (s.AddGeometry fast_id name geom mat fast).bounds_ =
        (s.RemoveGeometry name).bounds_.union geom.extent ∧
      (s.AddGeometry fast_id name geom mat fast).lod_ = s.lod_ := by
  unfold Open3DScene.AddGeometry
  simp only [SetGeometryToLOD_eq, RemoveGeometry_lod]
  refine ⟨trivial, ?_, trivial, trivial⟩
  by_cases hf : (GeometryData.ctor_n_fast name (if fast then fast_id name else "")).fast_name = ""
  · simp [hf, Renderer.AddGeometry]
  · simp [hf, Renderer.AddGeometry]

theorem WellFormed_ctor (renderer : Renderer) : (Open3DScene.ctor renderer).WellFormed :=
  ⟨fun g hg => absurd hg (List.not_mem_nil g), fun g hg => absurd hg (List.not_mem_nil g),
    fun g hg => absurd hg (List.not_mem_nil g)⟩

theorem WellFormed_ClearGeometry (s : Open3DScene) : s.ClearGeometry.WellFormed :=
  ⟨fun g hg => absurd hg (List.not_mem_nil g), fun g hg => absurd hg (List.not_mem_nil g),
    fun g hg => absurd hg (List.not_mem_nil g)⟩

/-- After `SetLOD` the proxies are bound as the registry and the new mode say,
provided identifiers are unique. -/
theorem WellFormed_SetLOD (s : Open3DScene) (lod : LOD) (h : s.WellFormed) :
    (s.SetLOD lod).WellFormed := by
  by_cases hl : lod = s.lod_
  · rw [SetLOD_of_eq s lod hl]
    exact h
  rw [SetLOD_of_ne s lod hl]
  refine ⟨h.names, h.unique, ?_⟩
  intro g hg id hid
  show id ∈ foldShown lod s.geometries_ s.renderer_.shown ↔ _
  apply foldShown_prescribed lod _ _ id _ ⟨g, hg, hid⟩
  intro g2 hg2 hid2
  rw [h.unique g hg g2 hg2 id hid hid2]

theorem mem_releaseProxies_shown (r : Renderer) (data : GeometryData) (id : String) :
    id ∈ (releaseProxies r data).shown ↔ id ∉ proxyIds data ∧ id ∈ r.shown := by
  unfold releaseProxies Renderer.RemoveGeometry proxyIds
  by_cases hf : data.fast_name = "" <;> (simp [hf]; try tauto)

theorem WellFormed_RemoveGeometry (s : Open3DScene) (name : String) (h : s.WellFormed) :
    (s.RemoveGeometry name).WellFormed := by
  unfold Open3DScene.RemoveGeometry
  cases hfind : s.geometries_.find name with
  | none => exact h
  | some g =>
    have hg : (name, g) ∈ s.geometries_ := GeometryMap.find_some _ _ _ hfind
    have hsub : ∀ e ∈ s.geometries_.erase name, e ∈ s.geometries_ ∧ e.1 ≠ name := by
      intro e he
      have := List.mem_filter.1 he
      exact ⟨this.1, by simpa using this.2⟩
    refine ⟨fun e he => h.names e (hsub e he).1,
      fun e he e2 he2 => h.unique e (hsub e he).1 e2 (hsub e2 he2).1, ?_⟩
    intro e he id hid
    show id ∈ (releaseProxies s.renderer_ g).shown ↔ _
    rw [mem_releaseProxies_shown]
    have hno : id ∉ proxyIds g := fun hidg => by
      have := h.unique e (hsub e he).1 (name, g) hg id hid hidg
      exact (hsub e he).2 (by rw [this])
    have := h.bound e (hsub e he).1 id hid
    tauto

theorem WellFormed_ShowGeometry (s : Open3DScene) (name : String) (visible : Bool)
    (h : s.WellFormed) : (s.ShowGeometry name visible).WellFormed := by
  unfold Open3DScene.ShowGeometry
  cases hfind : s.geometries_.find name with
  | none => exact h
  | some g =>
    have hg : (name, g) ∈ s.geometries_ := GeometryMap.find_some _ _ _ hfind
    have hname : g.name = name := h.names _ hg
    refine ⟨?_, ?_, ?_⟩
    · intro e he
      rcases (GeometryMap.mem_assign _ _ _ _).1 he with rfl | ⟨he, _⟩
      · exact hname
      · exact h.names e he
    · intro e he e2 he2 id hid hid2
      rcases (GeometryMap.mem_assign _ _ _ _).1 he with rfl | ⟨he, hne⟩ <;>
        rcases (GeometryMap.mem_assign _ _ _ _).1 he2 with rfl | ⟨he2, hne2⟩
      · rfl
      · exact absurd (congrArg Prod.fst (h.unique (name, g) hg e2 he2 id hid hid2)).symm hne2
      · exact absurd (congrArg Prod.fst (h.unique e he (name, g) hg id hid hid2)) hne
      · exact h.unique e he e2 he2 id hid hid2
    · intro e he id hid
      show id ∈ (s.renderer_.ShowGeometry (activeProxy g s.lod_) visible).shown ↔
        (e.2.visible = true ∧ id = activeProxy e.2 s.lod_)
      have hshown : id ∈ (s.renderer_.ShowGeometry (activeProxy g s.lod_) visible).shown ↔
          (visible = true ∧ id = activeProxy g s.lod_) ∨
            (id ≠ activeProxy g s.lod_ ∧ id ∈ s.renderer_.shown) := by
        unfold Renderer.ShowGeometry
        cases visible <;> (simp; try tauto)
      rw [hshown]
      rcases (GeometryMap.mem_assign _ _ _ _).1 he with rfl | ⟨he, hne⟩
      · have hb := h.bound (name, g) hg id hid
        have hact : activeProxy { g with visible := visible } s.lod_ = activeProxy g s.lod_ := by
          cases s.lod_ <;> rfl
        simp only [hact]
        tauto
      · have hno : id ≠ activeProxy g s.lod_ := fun e1 => by
          have := h.unique e he (name, g) hg id hid (e1 ▸ activeProxy_mem g s.lod_)
          exact hne (by rw [this])
        have hb := h.bound e he id hid
        tauto

theorem WellFormed_AddGeometry (fast_id : String → String) (s : Open3DScene) (name : String)
    (geom : Geometry3D) (mat : Material) (fast : Bool) (h : s.WellFormed)
    (hadm : s.admits fast_id (.geometry (.AddGeometry name geom mat fast))) :
    (s.AddGeometry fast_id name geom mat fast).WellFormed := by
  have h₀ := WellFormed_RemoveGeometry s name h
  obtain ⟨hg, hsh, _, hlod⟩ := AddGeometry_fields fast_id s name geom mat fast
  have hadm2 : ∀ g ∈ s.geometries_, g.1 ≠ name →
      ∀ id ∈ proxyIds (GeometryData.ctor_n_fast name (if fast then fast_id name else "")),
        id ∉ proxyIds g.2 := hadm
  have hiname : (GeometryData.ctor_n_fast name (if fast then fast_id name else "")).name =
      name := rfl
  generalize GeometryData.ctor_n_fast name (if fast then fast_id name else "") = info
    at hg hsh hadm2 hiname
  have hmem : ∀ g, g ∈ (s.AddGeometry fast_id name geom mat fast).geometries_ ↔
      g = (name, info) ∨ (g ∈ (s.RemoveGeometry name).geometries_ ∧ g.1 ≠ name) := by
    intro g
    rw [hg, GeometryMap.mem_assign]
  have hold : ∀ g ∈ (s.RemoveGeometry name).geometries_, g.1 ≠ name →
      ∀ id ∈ proxyIds info, id ∉ proxyIds g.2 := fun g hgm hne =>
    hadm2 g ((mem_RemoveGeometry _ _ _).1 hgm).1 hne
  have hlod₀ : (s.RemoveGeometry name).lod_ = s.lod_ := RemoveGeometry_lod s name
  refine ⟨?_, ?_, ?_⟩
  · intro e he
    rcases (hmem e).1 he with rfl | ⟨he, _⟩
    · exact hiname
    · exact h₀.names e he
  · intro e he e2 he2 id hid hid2
    rcases (hmem e).1 he with rfl | ⟨he, hne⟩ <;>
      rcases (hmem e2).1 he2 with rfl | ⟨he2, hne2⟩
    · rfl
    · exact absurd hid2 (hold e2 he2 hne2 id hid)
    · exact absurd hid (hold e he hne id hid2)
    · exact h₀.unique e he e2 he2 id hid hid2
  · intro e he id hid
    rw [hsh, hlod, mem_stepShown]
    rcases (hmem e).1 he with rfl | ⟨he, hne⟩
    · have : id ∈ proxyIds info := hid
      tauto
    · have hno : id ∉ proxyIds info := fun hi => hold e he hne id hi hid
      have := h₀.bound e he id hid
      rw [hlod₀] at this
      tauto

theorem WellFormed_perform (fast_id : String → String) (s : Open3DScene) (c : SceneCall)
    (h : s.WellFormed) (hadm : s.admits fast_id c) : (s.perform fast_id c).WellFormed := by
  cases c with
  | geometry c =>
    cases c with
    | AddGeometry name geom mat fast =>
      exact WellFormed_AddGeometry fast_id s name geom mat fast h hadm
    | RemoveGeometry name => exact WellFormed_RemoveGeometry s name h
  | ClearGeometry => exact WellFormed_ClearGeometry s
  | ShowGeometry name visible => exact WellFormed_ShowGeometry s name visible h
  | SetLOD lod => exact WellFormed_SetLOD s lod h

/-- Every state reached from a well-formed one by calls whose identifiers do not
clash is well-formed; in particular its proxies are bound as its registry and
mode say. -/
theorem WellFormed_run (fast_id : String → String) (cs : List SceneCall) (s : Open3DScene)
    (h : s.WellFormed) (hadm : s.admitsAll fast_id cs) : (s.run fast_id cs).WellFormed := by
  induction cs generalizing s with
  | nil => exact h
  | cons c cs ih =>
    exact ih (s.perform fast_id c) (WellFormed_perform fast_id s c h hadm.1) hadm.2

/-! ## The mode along a sequence of calls -/

/-- No call but `SetLOD` changes the mode. -/
theorem perform_lod (fast_id : String → String) (s : Open3DScene) (c : SceneCall)
    (hc : c.isSetLOD = false) : (s.perform fast_id c).lod_ = s.lod_ := by
  cases c with
  | geometry c =>
    cases c with
    | AddGeometry name geom mat fast =>
      exact (AddGeometry_fields fast_id s name geom mat fast).2.2.2
    | RemoveGeometry name => exact RemoveGeometry_lod s name
  | ClearGeometry => rfl
  | ShowGeometry name visible =>
    show (s.ShowGeometry name visible).lod_ = s.lod_
    unfold Open3DScene.ShowGeometry
    split <;> rfl
  | SetLOD lod => exact absurd hc (by simp [SceneCall.isSetLOD])

theorem run_lod (fast_id : String → String) (cs : List SceneCall) (s : Open3DScene)
    (hcs : ∀ c ∈ cs, c.isSetLOD = false) : (s.run fast_id cs).lod_ = s.lod_ := by
  induction cs generalizing s with
  | nil => rfl
  | cons c cs ih =>
    have h1 := perform_lod fast_id s c (hcs c (List.mem_cons_self _ _))
    have h2 := ih (s.perform fast_id c) (fun c2 hc2 => hcs c2 (List.mem_cons_of_mem _ hc2))
    exact h2.trans h1

theorem find_orderedInsert (name : String) (data : GeometryData) (l : GeometryMap)
    (h : ∀ p ∈ l, p.1 ≠ name) :
    (List.orderedInsert keyLE (name, data) l).find? (fun p => p.1 = name) = some (name, data) := by
  induction l with
  | nil => simp
  | cons q l ih =>
    have hq : q.1 ≠ name := h q (List.mem_cons_self _ _)
    rw [List.orderedInsert]
    split
    · simp
    · rw [List.find?_cons]
      simp only [hq, decide_False]
      exact ih (fun p hp => h p (List.mem_cons_of_mem _ hp))

theorem GeometryMap.find_assign (m : GeometryMap) (name : String) (data : GeometryData) :
    (m.assign name data).find name = some data := by
  unfold GeometryMap.find GeometryMap.assign GeometryMap.erase
  rw [find_orderedInsert]
  · rfl
  · intro p hp
    simpa using (List.mem_filter.1 hp).2

/-! ## Clashing identifiers, whatever the naming of fast proxies -/

theorem foldShown_nil (lod : LOD) (B : Finset String) : foldShown lod [] B = B := rfl

theorem RemoveGeometry_of_not_mem (s : Open3DScene) (name : String)
    (h : name ∉ s.geometries_.map Prod.fst) : s.RemoveGeometry name = s := by
  unfold Open3DScene.RemoveGeometry
  cases hfind : s.geometries_.find name with
  | none => rfl
  | some g =>
    exact absurd (List.mem_map_of_mem Prod.fst (GeometryMap.find_some _ _ _ hfind)) h

/-- The registry and the bound proxies after `AddGeometry` of a name that is not
registered. -/
theorem AddGeometry_of_not_mem (fast_id : String → String) (s : Open3DScene) (name : String)
    (geom : Geometry3D) (mat : Material) (fast : Bool)
    (h : name ∉ s.geometries_.map Prod.fst) :
    (s.AddGeometry fast_id name geom mat fast).geometries_ =
        List.orderedInsert keyLE
          (name, GeometryData.ctor_n_fast name (if fast then fast_id name else ""))
          s.geometries_ ∧
      (s.AddGeometry fast_id name geom mat fast).renderer_.shown =
        stepShown s.lod_ s.renderer_.shown
          (GeometryData.ctor_n_fast name (if fast then fast_id name else "")) := by
  obtain ⟨hg, hsh, _, _⟩ := AddGeometry_fields fast_id s name geom mat fast
  rw [RemoveGeometry_of_not_mem s name h] at hg hsh
  refine ⟨?_, hsh⟩
  rw [hg, GeometryMap.assign, GeometryMap.erase, filter_ne_eq_self _ _ h]

/-- Whatever identifier `fast_id` gives the downsampled copy of a geometry `n`
(other than none, and other than `n` itself), a scene in `HIGH_DETAIL` mode is
reached from a new scene by two `AddGeometry` calls on which `SetLOD(FAST)`
followed by `SetLOD(HIGH_DETAIL)` changes the set of bound proxies: the calls
register `n` with a downsampled copy and a geometry named like that copy. -/
theorem round_trip_changes_bound_proxies (fast_id : String → String) (renderer : Renderer)
    (n : String) (geom : Geometry3D) (mat : Material)
    (h₁ : fast_id n ≠ "") (h₂ : fast_id n ≠ n) :
    ∃ cs : List GeometryCall,
      ((Open3DScene.ctor renderer).calls fast_id cs).GetLOD = LOD.HIGH_DETAIL ∧
      ((((Open3DScene.ctor renderer).calls fast_id cs).SetLOD LOD.FAST).SetLOD
        LOD.HIGH_DETAIL).renderer_.shown ≠
        ((Open3DScene.ctor renderer).calls fast_id cs).renderer_.shown := by
  have hround : ∀ s : Open3DScene, s.lod_ = LOD.HIGH_DETAIL →
      ((s.SetLOD LOD.FAST).SetLOD LOD.HIGH_DETAIL).renderer_.shown =
        foldShown LOD.HIGH_DETAIL s.geometries_ s.renderer_.shown := by
    intro s hs
    have h₃ : LOD.FAST ≠ s.lod_ := by rw [hs]; decide
    rw [SetLOD_of_ne s LOD.FAST h₃, SetLOD_of_ne _ LOD.HIGH_DETAIL (fun e => LOD.noConfusion e)]
    exact foldShown_idem _ _ _ _
  have hn : n ∉ ([] : GeometryMap).map Prod.fst := List.not_mem_nil n
  -- the two entries
  have hfn : (GeometryData.ctor_n_fast n (if true then fast_id n else "")) =
      GeometryData.ctor_n_fast n (fast_id n) := rfl
  have hff : (GeometryData.ctor_n_fast (fast_id n) (if false then fast_id (fast_id n) else "")) =
      GeometryData.ctor_n_fast (fast_id n) "" := rfl
  have hidn : fast_id n ∈ proxyIds (GeometryData.ctor_n_fast n (fast_id n)) := by
    simp [proxyIds, GeometryData.ctor_n_fast, h₁]
  have hidf : fast_id n ∈ proxyIds (GeometryData.ctor_n_fast (fast_id n) "") := by
    simp [proxyIds, GeometryData.ctor_n_fast]
  have hactn : fast_id n ≠ activeProxy (GeometryData.ctor_n_fast n (fast_id n)) LOD.HIGH_DETAIL :=
    h₂
  have hactf : fast_id n =
      activeProxy (GeometryData.ctor_n_fast (fast_id n) "") LOD.HIGH_DETAIL := rfl
  by_cases hle : keyLE (n, GeometryData.ctor_n_fast n (fast_id n))
      (fast_id n, GeometryData.ctor_n_fast (fast_id n) "")
  · -- the copy's name is registered first; the entry of that name is handled last
    refine ⟨[.AddGeometry (fast_id n) geom mat false, .AddGeometry n geom mat true], ?_, ?_⟩
    · exact ((AddGeometry_fields fast_id _ n geom mat true).2.2.2).trans
        (AddGeometry_fields fast_id _ (fast_id n) geom mat false).2.2.2
    · obtain ⟨hg₁, _⟩ := AddGeometry_of_not_mem fast_id (Open3DScene.ctor renderer)
        (fast_id n) geom mat false (List.not_mem_nil _)
      have hnot : n ∉ ((Open3DScene.ctor renderer).AddGeometry fast_id (fast_id n) geom mat
          false).geometries_.map Prod.fst := by
        rw [hg₁]
        simpa [Open3DScene.ctor, hff] using fun e : n = fast_id n => h₂ e.symm
      obtain ⟨hg₂, hs₂⟩ := AddGeometry_of_not_mem fast_id _ n geom mat true hnot
      have hlod : (((Open3DScene.ctor renderer).AddGeometry fast_id (fast_id n) geom mat
          false).AddGeometry fast_id n geom mat true).lod_ = LOD.HIGH_DETAIL :=
        ((AddGeometry_fields fast_id _ n geom mat true).2.2.2).trans
          (AddGeometry_fields fast_id _ (fast_id n) geom mat false).2.2.2
      intro heq
      have heq2 := hround _ hlod
      simp only [Open3DScene.calls, List.foldl_cons, List.foldl_nil, Open3DScene.call] at heq
      rw [heq2] at heq
      have hin : fast_id n ∈ foldShown LOD.HIGH_DETAIL
          (((Open3DScene.ctor renderer).AddGeometry fast_id (fast_id n) geom mat
            false).AddGeometry fast_id n geom mat true).geometries_
          (((Open3DScene.ctor renderer).AddGeometry fast_id (fast_id n) geom mat
            false).AddGeometry fast_id n geom mat true).renderer_.shown := by
        rw [hg₂, hg₁, hfn, hff]
        simp only [Open3DScene.ctor, List.orderedInsert, hle, if_true]
        rw [foldShown_cons, foldShown_cons, foldShown_nil, mem_stepShown]
        exact Or.inl ⟨hidf, rfl, hactf⟩
      rw [heq, hs₂, hfn, mem_stepShown] at hin
      rcases hin with ⟨_, _, hc⟩ | ⟨hc, _⟩
      · exact hactn (by
          rw [hc, (AddGeometry_fields fast_id _ (fast_id n) geom mat false).2.2.2]
          rfl)
      · exact hc hidn
  · -- the geometry with the copy is registered first; its entry is handled last
    have hle2 : keyLE (fast_id n, GeometryData.ctor_n_fast (fast_id n) "")
        (n, GeometryData.ctor_n_fast n (fast_id n)) := le_of_not_le hle
    refine ⟨[.AddGeometry n geom mat true, .AddGeometry (fast_id n) geom mat false], ?_, ?_⟩
    · exact ((AddGeometry_fields fast_id _ (fast_id n) geom mat false).2.2.2).trans
        (AddGeometry_fields fast_id _ n geom mat true).2.2.2
    · obtain ⟨hg₁, _⟩ := AddGeometry_of_not_mem fast_id (Open3DScene.ctor renderer)
        n geom mat true (List.not_mem_nil _)
      have hnot : fast_id n ∉ ((Open3DScene.ctor renderer).AddGeometry fast_id n geom mat
          true).geometries_.map Prod.fst := by
        rw [hg₁]
        simpa [Open3DScene.ctor, hfn] using h₂
      obtain ⟨hg₂, hs₂⟩ := AddGeometry_of_not_mem fast_id _ (fast_id n) geom mat false hnot
      have hlod : (((Open3DScene.ctor renderer).AddGeometry fast_id n geom mat
          true).AddGeometry fast_id (fast_id n) geom mat false).lod_ = LOD.HIGH_DETAIL :=
        ((AddGeometry_fields fast_id _ (fast_id n) geom mat false).2.2.2).trans
          (AddGeometry_fields fast_id _ n geom mat true).2.2.2
      intro heq
      have heq2 := hround _ hlod
      simp only [Open3DScene.calls, List.foldl_cons, List.foldl_nil, Open3DScene.call] at heq
      rw [heq2] at heq
      have hin : fast_id n ∈ (((Open3DScene.ctor renderer).AddGeometry fast_id n geom mat
          true).AddGeometry fast_id (fast_id n) geom mat false).renderer_.shown := by
        rw [hs₂, hff, mem_stepShown]
        exact Or.inl ⟨hidf, rfl, by
          rw [(AddGeometry_fields fast_id _ n geom mat true).2.2.2]; rfl⟩
      rw [← heq, hg₂, hg₁, hfn, hff] at hin
      simp only [Open3DScene.ctor, List.orderedInsert, hle2, if_true] at hin
      rw [foldShown_cons, foldShown_cons, foldShown_nil, mem_stepShown] at hin
      rcases hin with ⟨_, _, hc⟩ | ⟨hc, _⟩
      · exact hactn hc
      · exact hc hidn
theorem filter_orderedInsert_self (name : String) (data : GeometryData) (l : GeometryMap)
    (h : ∀ p ∈ l, p.1 ≠ name) :
    (List.orderedInsert keyLE (name, data) l).filter (fun p => p.1 ≠ name) = l := by
  induction l with
  | nil => simp
  | cons q l ih =>
    have hq : q.1 ≠ name := h q (List.mem_cons_self _ _)
    have hl : l.filter (fun p => p.1 ≠ name) = l :=
      List.filter_eq_self.2 (fun p hp => by simpa using h p (List.mem_cons_of_mem _ hp))
    rw [List.orderedInsert]
    split
    · rw [List.filter_cons_of_neg (by simp), List.filter_cons_of_pos (by simpa using hq), hl]
    · rw [List.filter_cons_of_pos (by simpa using hq),
        ih (fun p hp => h p (List.mem_cons_of_mem _ hp))]

theorem GeometryMap.erase_assign (m : GeometryMap) (name : String) (data : GeometryData) :
    (m.assign name data).erase name = m.erase name := by
  unfold GeometryMap.assign GeometryMap.erase
  exact filter_orderedInsert_self name data _ (fun p hp => by simpa using (List.mem_filter.1 hp).2)

theorem GetGeometryBoundingBox_RemoveGeometry_same (r : Renderer) (id : String) :
    (r.RemoveGeometry id).GetGeometryBoundingBox id = AxisAlignedBoundingBox.empty := by
  simp only [Renderer.GetGeometryBoundingBox, Renderer.RemoveGeometry]
  induction r.geometry with
  | nil => rfl
  | cons p l ih =>
    by_cases hp : p.1 = id
    · simpa [List.filter_cons, hp] using ih
    · simpa [List.filter_cons, hp, lookupExtent] using ih

/-- Whatever identifier `fast_id` gives the downsampled copy of a geometry `n`
(other than none, and other than `n` itself): when a geometry named like that
copy is registered, then `n` with a downsampled copy, and `n` is removed, the
box is empty, though the first geometry is still registered; the box is not the
union of the registered extents unless that geometry has an empty extent. -/
theorem clash_empties_bounding_box (fast_id : String → String) (renderer : Renderer)
    (n : String) (g₁ g₂ : Geometry3D) (mat : Material)
    (h₁ : fast_id n ≠ "") (h₂ : fast_id n ≠ n) :
    registeredAfter [] [.AddGeometry (fast_id n) g₁ mat false, .AddGeometry n g₂ mat true,
        .RemoveGeometry n] = [(fast_id n, g₁)] ∧
      ((Open3DScene.ctor renderer).calls fast_id
        [.AddGeometry (fast_id n) g₁ mat false, .AddGeometry n g₂ mat true,
          .RemoveGeometry n]).bounds_ = AxisAlignedBoundingBox.empty := by
  have h₃ : ¬ n = fast_id n := fun e => h₂ e.symm
  refine ⟨by simp [registeredAfter, h₂, h₃], ?_⟩
  simp only [Open3DScene.calls, List.foldl_cons, List.foldl_nil, Open3DScene.call]
  obtain ⟨hg₁, _⟩ := AddGeometry_of_not_mem fast_id (Open3DScene.ctor renderer)
    (fast_id n) g₁ mat false (List.not_mem_nil _)
  have hff : (GeometryData.ctor_n_fast (fast_id n) (if false then fast_id (fast_id n) else "")) =
      GeometryData.ctor_n_fast (fast_id n) "" := rfl
  have hfn : (GeometryData.ctor_n_fast n (if true then fast_id n else "")) =
      GeometryData.ctor_n_fast n (fast_id n) := rfl
  rw [hff] at hg₁
  have hnot : n ∉ ((Open3DScene.ctor renderer).AddGeometry fast_id (fast_id n) g₁ mat
      false).geometries_.map Prod.fst := by
    rw [hg₁]
    simpa [Open3DScene.ctor] using h₃
  generalize hs₁ :
    (Open3DScene.ctor renderer).AddGeometry fast_id (fast_id n) g₁ mat false = s₁ at hg₁ hnot
  have hg₁' : s₁.geometries_ = [(fast_id n, GeometryData.ctor_n_fast (fast_id n) "")] := by
    rw [hg₁]
    simp [Open3DScene.ctor]
  obtain ⟨hg₂, _, _, _⟩ := AddGeometry_fields fast_id s₁ n g₂ mat true
  rw [hfn, RemoveGeometry_of_not_mem s₁ n hnot] at hg₂
  generalize hs₂ : s₁.AddGeometry fast_id n g₂ mat true = s₂ at hg₂
  have hfind : s₂.geometries_.find n = some (GeometryData.ctor_n_fast n (fast_id n)) := by
    rw [hg₂, GeometryMap.find_assign]
  have herase : s₂.geometries_.erase n =
      [(fast_id n, GeometryData.ctor_n_fast (fast_id n) "")] := by
    rw [hg₂, GeometryMap.erase_assign, hg₁']
    simp [GeometryMap.erase, h₂]
  unfold Open3DScene.RemoveGeometry
  rw [hfind]
  show recomputeBounds _ (s₂.geometries_.erase n) = _
  rw [recomputeBounds_eq, herase]
  have hrel : (releaseProxies s₂.renderer_
      (GeometryData.ctor_n_fast n (fast_id n))).GetGeometryBoundingBox (fast_id n) =
      AxisAlignedBoundingBox.empty := by
    unfold releaseProxies
    simp only [GeometryData.ctor_n_fast, h₁, if_false]
    exact GetGeometryBoundingBox_RemoveGeometry_same _ _
  simp only [List.map_cons, List.map_nil, unionAll_cons]
  show AxisAlignedBoundingBox.union
    ((releaseProxies s₂.renderer_ (GeometryData.ctor_n_fast n (fast_id n))).GetGeometryBoundingBox
      (fast_id n)) (unionAll []) = _
  rw [hrel]
  rfl

/-! ## The claims -/

/-- C2: for every scene state, `ClearGeometry` leaves the registry empty and
the bounding box equal to the empty (default-constructed) box, whatever they
held before. -/
theorem ClearGeometry_empties_registry_and_box (s : Open3DScene) :
    s.ClearGeometry.geometries_ = [] ∧
      s.ClearGeometry.bounds_ = AxisAlignedBoundingBox.empty ∧
      (s.ClearGeometry.GetBoundingBox).1 = (Open3DScene.ctor s.renderer_).bounds_ :=
  ⟨rfl, rfl, rfl⟩

/-- C3: an entry built by `GeometryData(n, fast)`, the constructor used for the
entry of an added geometry, is visible: for every name `n` and fast name `fast`
the constructed entry has `visible = true`. -/
theorem GeometryData_ctor_n_fast_visible (n fast : String) :
    (GeometryData.ctor_n_fast n fast).visible = true :=
  rfl

/-- C4: the mode of every newly constructed scene is `HIGH_DETAIL`: the field
`lod_` starts as `LOD::HIGH_DETAIL`, and `GetLOD` reports `HIGH_DETAIL` as long
as `SetLOD` has not been called, whatever other calls were made. -/
theorem new_scene_is_HIGH_DETAIL (renderer : Renderer) :
    (Open3DScene.ctor renderer).lod_ = LOD.HIGH_DETAIL ∧
      (Open3DScene.ctor renderer).GetLOD = LOD.HIGH_DETAIL ∧
      ∀ (fast_id : String → String) (cs : List SceneCall),
        (∀ c ∈ cs, c.isSetLOD = false) →
        ((Open3DScene.ctor renderer).run fast_id cs).GetLOD = LOD.HIGH_DETAIL :=
  ⟨rfl, rfl, fun fast_id cs hcs => run_lod fast_id cs (Open3DScene.ctor renderer) hcs⟩

/-- Witness of C4: the example sequence of calls has no `SetLOD`, and `GetLOD`
reports `HIGH_DETAIL` after it. -/
theorem new_scene_is_HIGH_DETAIL_witness :
    (∀ c ∈ exampleRun, c.isSetLOD = false) ∧
      ((Open3DScene.ctor exampleRenderer).run suffixFastId exampleRun).GetLOD =
        LOD.HIGH_DETAIL :=
  ⟨by decide,
    (new_scene_is_HIGH_DETAIL exampleRenderer).2.2 suffixFastId exampleRun (by decide)⟩

/-- C8: `GetBoundingBox` is a read-only accessor: for every scene state it
returns the stored box `bounds_` and leaves the scene, with every field of it
(`lod_`, `geometries_`, `bounds_`, `scene_`, `view_`, the renderer), as it is. -/
theorem GetBoundingBox_read_only (s : Open3DScene) :
    (s.GetBoundingBox).1 = s.bounds_ ∧ (s.GetBoundingBox).2 = s ∧
      (s.GetBoundingBox).2.lod_ = s.lod_ ∧
      (s.GetBoundingBox).2.geometries_ = s.geometries_ ∧
      (s.GetBoundingBox).2.bounds_ = s.bounds_ ∧
      (s.GetBoundingBox).2.scene_ = s.scene_ ∧
      (s.GetBoundingBox).2.view_ = s.view_ ∧
      (s.GetBoundingBox).2.renderer_ = s.renderer_ :=
  ⟨rfl, rfl, rfl, rfl, rfl, rfl, rfl, rfl⟩

/-- C9: the two-argument constructor stores its arguments in the matching
fields, neither swapped nor altered: `GeometryData(n, fast)` has `name = n` and
`fast_name = fast`; so its `fast_name` is empty exactly when `fast` is. -/
theorem GeometryData_ctor_n_fast_fields (n fast : String) :
    (GeometryData.ctor_n_fast n fast).name = n ∧
      (GeometryData.ctor_n_fast n fast).fast_name = fast ∧
      ((GeometryData.ctor_n_fast n fast).fast_name = "" ↔ fast = "") :=
  ⟨rfl, rfl, Iff.rfl⟩

/-- C10: a default-constructed `GeometryData` is hidden and anonymous:
`visible = false`, `name` and `fast_name` are the empty string; so it differs
from every entry built by `GeometryData(n, fast)`, which is visible. -/
theorem GeometryData_ctor_hidden_anonymous :
    GeometryData.ctor.visible = false ∧ GeometryData.ctor.name = "" ∧
      GeometryData.ctor.fast_name = "" ∧
      ∀ n fast : String, GeometryData.ctor ≠ GeometryData.ctor_n_fast n fast := by
  refine ⟨rfl, rfl, rfl, fun n fast h => ?_⟩
  have hv : GeometryData.ctor.visible = (GeometryData.ctor_n_fast n fast).visible := by rw [h]
  exact Bool.false_ne_true hv

end open3d
